import Mathlib

/-!
Verification of the PolyLingua-Hub streaming speech pipeline
(`speech_Recognizer.p.py`) against its natural-language specification.

The Python source is shallowly embedded: each component that the claims
touch is translated into an executable Lean definition, state is passed
explicitly, and worker loops become folds over the list of per-iteration
inputs (the data a loop iteration dequeues, together with the outcome of
the external decoder / recognizer / network call it performs).
-/

namespace PolyLingua

/-! ## Events

Messages placed on `message_queue` by the workers.  In the source these
are dictionaries `{"type": ..., ...}`; a final transcription additionally
carries a wall-clock string which no claim concerns, so it is omitted.
An `interim` event records the wall-clock millisecond `time.time()*1000.0`
read when the partial message was emitted, which is the quantity the
rate-limiting claims are about. -/

inductive Severity
  | ready
  | listening
  | error
deriving DecidableEq

inductive Ev
  | finalTx (text : String)
  | interim (text : String) (t : Int)
  | statusEv (text : String) (sev : Severity)
deriving DecidableEq

/-- Python `str.strip()` on a text value: drop whitespace on both ends. -/
def pyStrip (s : String) : String :=
  String.mk (((s.data.dropWhile Char.isWhitespace).reverse.dropWhile
      Char.isWhitespace).reverse)

/-! ## Low-latency capture (`LowLatencyCapture` and `_capture_sink`)

`LowLatencyCapture.__init__` computes
`self.chunk = max(1, int(rate * chunk_ms / 1000))` samples; the stream is
opened with `format=pyaudio.paInt16, channels=1`, so one frame occupies
two bytes per sample. -/

def chunkSamples (rate chunkMs : ℕ) : ℕ :=
  max 1 (rate * chunkMs / 1000)

def frameBytes (rate chunkMs : ℕ) : ℕ :=
  2 * chunkSamples rate chunkMs

/-- `_read_loop` computes `rms = sqrt(mean(arr*arr))/32768` for nonempty
frames and `0.0` otherwise, and pushes it as an amplitude message.  We
record the radicand `mean(arr*arr)` exactly (the pushed value is the
strictly monotone image `sqrt(.)/32768` of it). -/
def meanSq (samples : List Int) : ℚ :=
  if samples.length = 0 then 0
  else ((samples.map (fun x => (x : ℚ) * x)).sum) / (samples.length : ℚ)

inductive FrameDest
  | recognizer
  | spillover
deriving DecidableEq

/-- `GeminiStreamingAutoDLApp._capture_sink`: feed the frame to the VOSK
streamer if it exists and `.running` is true, else `segment_queue`. -/
def captureSinkDest (voskRunning : Bool) : FrameDest :=
  if voskRunning then FrameDest.recognizer else FrameDest.spillover

/-- One successful read iteration of `LowLatencyCapture._read_loop`: the
amplitude message is pushed, then the frame goes to `self.sink` when one
is installed (`callable(self.sink)`), else to `segment_queue`.  The only
sink the program ever defines is `_capture_sink`, so an installed sink
routes per `captureSinkDest`. -/
def readIter (sinkInstalled voskRunning : Bool) (samples : List Int) :
    ℚ × FrameDest :=
  (meanSq samples,
    if sinkInstalled then captureSinkDest voskRunning else FrameDest.spillover)

/-- `LowLatencyCapture.__init__` sets `self.sink = None`, and no statement
anywhere in the program assigns it afterwards; in particular
`GeminiStreamingAutoDLApp` never installs `_capture_sink`. -/
def appSinkInstalled : Bool := false

/-! ## Asset provisioning (`auto_download_model`), attempt-level view

`auto_download_model(target_dir, urls, cb)` returns immediately with
success when `os.path.isdir(target_dir)` holds — it never inspects the
directory's contents.  Otherwise it walks `urls` in order; each attempt
performs one network fetch (`_download_with_progress` opens the URL), and
on download+extract success with a model directory located it returns
success, else it advances to the next URL. -/

structure DlEnv where
  /-- `os.path.isdir(target_dir)` at call time. -/
  targetIsDir : Bool
  /-- whether the target directory has any entries; the source never
  reads this. -/
  targetNonempty : Bool
  /-- `_download_with_progress` succeeds for this URL. -/
  dlOk : String → Bool
  /-- `_extract_zip` succeeds for the archive fetched from this URL. -/
  extractOk : String → Bool
  /-- after extraction, the exact-name model directory or a
  `vosk-model*` sibling directory is found. -/
  dirFound : String → Bool

/-- The `for url in urls` loop of `auto_download_model`, counting network
fetch attempts. -/
def admGo (env : DlEnv) : List String → ℕ → Bool × ℕ
  | [], n => (false, n)
  | u :: rest, n =>
    if env.dlOk u then
      (if env.extractOk u && env.dirFound u then (true, n + 1)
       else admGo env rest (n + 1))
    else admGo env rest (n + 1)

/-- `auto_download_model`, returning the success flag together with the
number of network fetch attempts made. -/
def autoDownloadModel (env : DlEnv) (urls : List String) : Bool × ℕ :=
  if env.targetIsDir then (true, 0) else admGo env urls 0

lemma admGo_true_lt (env : DlEnv) :
    ∀ (urls : List String) (n : ℕ),
      (admGo env urls n).1 = true → n < (admGo env urls n).2
  | [], n => by simp [admGo]
  | u :: rest, n => by
    simp only [admGo]
    by_cases h1 : env.dlOk u
    · by_cases h2 : env.extractOk u && env.dirFound u
      · simp [h1, h2]
      · simp only [h1, h2, if_true, Bool.false_eq_true, if_false]
        intro h
        have := admGo_true_lt env rest (n + 1) h
        omega
    · rw [if_neg h1]
      intro h
      have := admGo_true_lt env rest (n + 1) h
      omega

/-- An environment where the target directory exists but is empty. -/
def emptyDirEnv : DlEnv :=
  { targetIsDir := true
    targetNonempty := false
    dlOk := fun _ => false
    extractOk := fun _ => false
    dirFound := fun _ => false }

/-! ## VOSK streaming wrapper (`VoskStreamer._loop`)

One loop iteration dequeues a frame and runs it through the decoder
inside a `try`.  We abstract what the external decoder and the JSON
parser produce for that frame: `AcceptWaveform` returned true and the
`Result` JSON yielded a text (`none` when `json.loads`/`get` raised);
or `AcceptWaveform` returned false and `PartialResult` yielded a partial
text, read together with the wall clock `time.time()*1000.0`; or the
decode raised. -/

inductive DecodeOutcome
  | utterance (res : Option String)
  | hypo (res : Option String) (now : Int)
  | raises (msg : String)
deriving DecidableEq

/-- One iteration of `VoskStreamer._loop` on a dequeued frame, given the
current `_last_partial_time` state `s` and the configured partial
interval `iv` (`partial_interval_ms`): returns the new
`_last_partial_time` and the messages pushed. -/
def streamStep (iv s : Int) : DecodeOutcome → Int × List Ev
  | DecodeOutcome.utterance none => (s, [])
  | DecodeOutcome.utterance (some t) =>
    (s, if pyStrip t = ("") then [] else [Ev.finalTx (pyStrip t)])
  | DecodeOutcome.hypo none _ => (s, [])
  | DecodeOutcome.hypo (some t) now =>
    if pyStrip t ≠ ("") ∧ iv ≤ now - s then
      (now, [Ev.interim (pyStrip t) now])
    else (s, [])
  | DecodeOutcome.raises m =>
    (s, [Ev.statusEv (("VOSK error: ") ++ m) Severity.error])

/-- The decode loop over a sequence of dequeued frames.
`VoskStreamer.__init__` sets `_last_partial_time = 0.0`, so a fresh
streamer runs with initial state `0`. -/
def streamRun (iv : Int) : Int → List DecodeOutcome → Int × List Ev
  | s, [] => (s, [])
  | s, o :: os =>
    ((streamRun iv (streamStep iv s o).1 os).1,
      (streamStep iv s o).2 ++ (streamRun iv (streamStep iv s o).1 os).2)

/-- The wall-clock instant attached to a partial message, `none` for the
other message kinds. -/
def evTime : Ev → Option Int
  | Ev.interim _ t => some t
  | Ev.finalTx _ => none
  | Ev.statusEv _ _ => none

/-- The emission instants of the partial messages in a message list. -/
def interimTimes (es : List Ev) : List Int := es.filterMap evTime

lemma interimTimes_run (iv s : Int) (o : DecodeOutcome)
    (os : List DecodeOutcome) :
    interimTimes (streamRun iv s (o :: os)).2
      = interimTimes (streamStep iv s o).2
          ++ interimTimes (streamRun iv (streamStep iv s o).1 os).2 := by
  simp [streamRun, interimTimes, List.filterMap_append]

/-- A loop iteration either emits no partial and leaves
`_last_partial_time` unchanged, or emits exactly one partial at an
instant at least `iv` after the stored state. -/
lemma streamStep_emits (iv s : Int) (o : DecodeOutcome) :
    ((streamStep iv s o).1 = s ∧ interimTimes (streamStep iv s o).2 = [])
      ∨ ∃ t, (streamStep iv s o).1 = t
          ∧ interimTimes (streamStep iv s o).2 = [t] ∧ iv ≤ t - s := by
  cases o with
  | utterance r =>
    cases r with
    | none => exact Or.inl ⟨rfl, rfl⟩
    | some u =>
      refine Or.inl ⟨rfl, ?_⟩
      simp only [streamStep, interimTimes]
      split <;> simp [evTime]
  | hypo r now =>
    cases r with
    | none => exact Or.inl ⟨rfl, rfl⟩
    | some u =>
      by_cases hc : pyStrip u ≠ ("") ∧ iv ≤ now - s
      · exact Or.inr ⟨now, by simp [streamStep, hc, interimTimes, evTime],
          by simp [streamStep, hc, interimTimes, evTime], hc.2⟩
      · exact Or.inl ⟨by simp [streamStep, hc],
          by simp [streamStep, hc, interimTimes]⟩
  | raises m => exact Or.inl ⟨rfl, by simp [interimTimes, streamStep, evTime]⟩

/-- Core rate-limit invariant: relative to the stored
`_last_partial_time` `s`, successive partial emissions are chained at
least `iv` apart. -/
lemma chain_from (iv : Int) :
    ∀ (os : List DecodeOutcome) (s : Int),
      List.Chain (fun a b => iv ≤ b - a) s
        (interimTimes (streamRun iv s os).2)
  | [], s => by
    simp [streamRun, interimTimes]
  | o :: os, s => by
    rw [interimTimes_run]
    rcases streamStep_emits iv s o with ⟨h1, h2⟩ | ⟨t, h1, h2, h3⟩
    · rw [h2, h1, List.nil_append]
      exact chain_from iv os s
    · rw [h2, h1, List.singleton_append]
      exact List.Chain.cons h3 (chain_from iv os t)

lemma chain_all (iv : Int) (hiv : 0 ≤ iv) :
    ∀ (l : List Int) (b : Int),
      List.Chain (fun a c => iv ≤ c - a) b l → ∀ c ∈ l, iv ≤ c - b
  | [], _, _, c, hc => by simp at hc
  | x :: xs, b, h, c, hc => by
    rw [List.chain_cons] at h
    rcases List.mem_cons.mp hc with rfl | hc2
    · exact h.1
    · have hx := chain_all iv hiv xs x h.2 c hc2
      have hb := h.1
      omega

lemma chain_pairwise (iv : Int) (hiv : 0 ≤ iv) :
    ∀ (l : List Int) (b : Int),
      List.Chain (fun a c => iv ≤ c - a) b l
        → List.Pairwise (fun a c => iv ≤ c - a) l
  | [], _, _ => List.Pairwise.nil
  | x :: xs, b, h => by
    rw [List.chain_cons] at h
    exact List.Pairwise.cons (fun c hc => chain_all iv hiv xs x h.2 c hc)
      (chain_pairwise iv hiv xs x h.2)

/-- The spec's timing scenario, run at wall-clock base `B` (the stored
`_last_partial_time` starts at `0.0`, so any realistic wall clock has
`B ≥ iv`): partials arriving at `B`, `B+50`, `B+100`, `B+160` with
interval 80 are emitted at `B` and `B+100` only. -/
lemma scenario_emits (B : Int) (hB : 80 ≤ B) :
    interimTimes (streamRun 80 0
      [DecodeOutcome.hypo (some ("a")) B,
       DecodeOutcome.hypo (some ("b")) (B + 50),
       DecodeOutcome.hypo (some ("c")) (B + 100),
       DecodeOutcome.hypo (some ("d")) (B + 160)]).2 = [B, B + 100] := by
  have hpa : pyStrip ("a") = ("a") := by decide
  have hpc : pyStrip ("c") = ("c") := by decide
  have s1 : streamStep 80 0 (DecodeOutcome.hypo (some ("a")) B)
      = (B, [Ev.interim ("a") B]) := by
    simp only [streamStep]
    rw [if_pos ⟨by decide, by omega⟩, hpa]
  have s2 : streamStep 80 B (DecodeOutcome.hypo (some ("b")) (B + 50))
      = (B, []) := by
    simp only [streamStep]
    rw [if_neg (fun h => by have := h.2; omega)]
  have s3 : streamStep 80 B (DecodeOutcome.hypo (some ("c")) (B + 100))
      = (B + 100, [Ev.interim ("c") (B + 100)]) := by
    simp only [streamStep]
    rw [if_pos ⟨by decide, by omega⟩, hpc]
  have s4 : streamStep 80 (B + 100)
      (DecodeOutcome.hypo (some ("d")) (B + 160)) = (B + 100, []) := by
    simp only [streamStep]
    rw [if_neg (fun h => by have := h.2; omega)]
  simp [streamRun, s1, s2, s3, s4, interimTimes, evTime]

lemma streamRun_append (iv : Int) :
    ∀ (l₁ l₂ : List DecodeOutcome) (s : Int),
      streamRun iv s (l₁ ++ l₂)
        = ((streamRun iv (streamRun iv s l₁).1 l₂).1,
           (streamRun iv s l₁).2 ++ (streamRun iv (streamRun iv s l₁).1 l₂).2)
  | [], l₂, s => by simp [streamRun]
  | o :: os, l₂, s => by
    simp only [List.cons_append, streamRun, List.append_eq,
      streamRun_append iv os l₂ (streamStep iv s o).1, List.append_assoc]

/-! ## VOSK streamer lifecycle (`VoskStreamer.load` / `VoskStreamer.start`)

`load` fails when the `vosk` import raises, when
`os.path.isdir(self.model_path)` is false, or when constructing
`Model`/`KaldiRecognizer` raises; only on full success is `self.rec`
assigned.  `start` returns immediately when `self.running` is already
true or `self.rec is None`, spawning no decode loop. -/

structure VoskEnv where
  /-- the `from vosk import ...` statement succeeds. -/
  importOk : Bool
  /-- `os.path.isdir` for a given path. -/
  isDir : String → Bool
  /-- constructing `Model(path)` and `KaldiRecognizer` succeeds. -/
  modelOk : String → Bool

structure VStreamer where
  modelPath : String
  running : Bool
  /-- `self.rec` is not `None`. -/
  recLoaded : Bool
deriving DecidableEq

/-- `VoskStreamer.__init__`: `running = False`, `rec = None`. -/
def VStreamer.mkNew (path : String) : VStreamer :=
  { modelPath := path, running := false, recLoaded := false }

/-- `VoskStreamer.load`: returns the success flag, the updated streamer
and the status messages pushed. -/
def loadVS (env : VoskEnv) (v : VStreamer) : Bool × VStreamer × List Ev :=
  if env.importOk then
    if env.isDir v.modelPath then
      if env.modelOk v.modelPath then
        (true, { v with recLoaded := true },
          [Ev.statusEv ("Loading VOSK model...") Severity.ready,
           Ev.statusEv ("VOSK model loaded") Severity.ready])
      else
        (false, v,
          [Ev.statusEv ("Loading VOSK model...") Severity.ready,
           Ev.statusEv ("VOSK load failed") Severity.error])
    else (false, v, [Ev.statusEv ("VOSK model path missing") Severity.error])
  else (false, v, [Ev.statusEv ("VOSK import failed") Severity.error])

/-- `VoskStreamer.start`: the flag records whether a decode-loop thread
was spawned. -/
def startVS (v : VStreamer) : Bool × VStreamer :=
  if v.running || !v.recLoaded then (false, v)
  else (true, { v with running := true })

/-! ## Claim theorems (streaming recognizer) -/

/-- Claim C3: a partial message is emitted by a loop iteration only when
the stripped partial text is non-empty and at least
`partial_interval_ms` has elapsed since the stored last-emission
instant; for a non-negative interval no two emitted partials of a run
lie less than the interval apart; and in the spec's scenario (arrivals
at `B`, `B+50`, `B+100`, `B+160` on a wall clock with `B ≥ 80`,
interval 80) exactly the partials at `B` and `B+100` are emitted. -/
theorem vosk_interim_rate_limit (iv s : Int) (os : List DecodeOutcome) :
    (∀ (o : DecodeOutcome) (p : String) (t : Int),
        Ev.interim p t ∈ (streamStep iv s o).2 → p ≠ ("") ∧ iv ≤ t - s)
      ∧ (0 ≤ iv →
          List.Pairwise (fun a b => iv ≤ b - a)
            (interimTimes (streamRun iv s os).2))
      ∧ (∀ B : Int, 80 ≤ B →
          interimTimes (streamRun 80 0
            [DecodeOutcome.hypo (some ("a")) B,
             DecodeOutcome.hypo (some ("b")) (B + 50),
             DecodeOutcome.hypo (some ("c")) (B + 100),
             DecodeOutcome.hypo (some ("d")) (B + 160)]).2 = [B, B + 100]) := by
  refine ⟨?_, ?_, fun B hB => scenario_emits B hB⟩
  · intro o p t hmem
    cases o with
    | utterance r =>
      cases r with
      | none => simp [streamStep] at hmem
      | some u =>
        simp only [streamStep] at hmem
        rcases hmem with hmem
        by_cases hz : pyStrip u = ("")
        · simp [hz] at hmem
        · simp [hz] at hmem
    | hypo r now =>
      cases r with
      | none => simp [streamStep] at hmem
      | some u =>
        by_cases hc : pyStrip u ≠ ("") ∧ iv ≤ now - s
        · simp only [streamStep, if_pos hc, List.mem_singleton,
            Ev.interim.injEq] at hmem
          obtain ⟨h1, h2⟩ := hmem
          subst h1
          subst h2
          exact ⟨hc.1, hc.2⟩
        · simp [streamStep, if_neg hc] at hmem
    | raises m => simp [streamStep] at hmem
  · intro hiv
    exact chain_pairwise iv hiv _ s (chain_from iv os s)

/-- Witness for C3 at concrete inputs. -/
theorem vosk_interim_rate_limit_witness :
    List.Pairwise (fun a b => (80 : Int) ≤ b - a)
      (interimTimes (streamRun 80 0
        [DecodeOutcome.hypo (some ("a")) 100000,
         DecodeOutcome.hypo (some ("b")) (100000 + 50),
         DecodeOutcome.hypo (some ("c")) (100000 + 100),
         DecodeOutcome.hypo (some ("d")) (100000 + 160)]).2)
      ∧ interimTimes (streamRun 80 0
        [DecodeOutcome.hypo (some ("a")) 100000,
         DecodeOutcome.hypo (some ("b")) (100000 + 50),
         DecodeOutcome.hypo (some ("c")) (100000 + 100),
         DecodeOutcome.hypo (some ("d")) (100000 + 160)]).2
        = [100000, 100000 + 100] :=
  ⟨(vosk_interim_rate_limit 80 0
      [DecodeOutcome.hypo (some ("a")) 100000,
       DecodeOutcome.hypo (some ("b")) (100000 + 50),
       DecodeOutcome.hypo (some ("c")) (100000 + 100),
       DecodeOutcome.hypo (some ("d")) (100000 + 160)]).2.1 (by decide),
   (vosk_interim_rate_limit 80 0 []).2.2 100000 (by decide)⟩

/-- Claim C6: a frame whose decode raises contributes exactly one VOSK
error status message, leaves the rate-limiter state untouched, and every
subsequent frame is processed exactly as it would have been — the loop
does not terminate. -/
theorem vosk_decode_error_continues (iv s : Int)
    (os₁ os₂ : List DecodeOutcome) (m : String) :
    streamRun iv s (os₁ ++ DecodeOutcome.raises m :: os₂)
      = ((streamRun iv (streamRun iv s os₁).1 os₂).1,
         (streamRun iv s os₁).2
           ++ Ev.statusEv (("VOSK error: ") ++ m) Severity.error
               :: (streamRun iv (streamRun iv s os₁).1 os₂).2) := by
  rw [streamRun_append]
  simp [streamRun, streamStep]

/-- Claim C10: processing an utterance boundary (final result) never
changes `_last_partial_time`, so the suppression window spans utterance
boundaries: a partial arriving less than the interval after the last
emitted partial of the previous utterance is suppressed even though a
final was emitted in between. -/
theorem vosk_rate_limit_spans_utterances (iv s t : Int) (fin p : String)
    (hlt : t - s < iv) :
    (∀ (r : Option String),
        (streamStep iv s (DecodeOutcome.utterance r)).1 = s)
      ∧ interimTimes (streamRun iv s
          [DecodeOutcome.utterance (some fin),
           DecodeOutcome.hypo (some p) t]).2 = [] := by
  refine ⟨fun r => by cases r <;> rfl, ?_⟩
  rw [interimTimes_run]
  have h1 : (streamStep iv s (DecodeOutcome.utterance (some fin))).1 = s := rfl
  have h2 : interimTimes
      (streamStep iv s (DecodeOutcome.utterance (some fin))).2 = [] := by
    simp only [streamStep, interimTimes]
    split <;> simp [evTime]
  rw [h2, h1, List.nil_append, interimTimes_run]
  have h3 : interimTimes
      (streamStep iv s (DecodeOutcome.hypo (some p) t)).2 = [] := by
    have hc : ¬ (pyStrip p ≠ ("") ∧ iv ≤ t - s) := by
      intro h
      have := h.2
      omega
    simp [streamStep, hc, interimTimes]
  rw [h3]
  simp [streamRun, interimTimes]

/-- Witness for C10 at concrete inputs. -/
theorem vosk_rate_limit_spans_utterances_witness :
    interimTimes (streamRun 80 1000
      [DecodeOutcome.utterance (some ("done")),
       DecodeOutcome.hypo (some ("next")) 1050]).2 = [] :=
  (vosk_rate_limit_spans_utterances 80 1000 1050 ("done") ("next")
    (by decide)).2

/-- Claim C7: `start()` spawns no decode loop while the recognizer handle
is absent (in particular on a freshly constructed streamer), and
`load()` reports failure whenever the model path is not a directory or
the decoder rejects the model — and a failed `load()` leaves the handle
exactly as it was. -/
theorem vosk_no_start_before_load (env : VoskEnv) (v : VStreamer)
    (path : String) :
    (v.recLoaded = false → startVS v = (false, v))
      ∧ startVS (VStreamer.mkNew path) = (false, VStreamer.mkNew path)
      ∧ ((env.isDir v.modelPath = false ∨ env.modelOk v.modelPath = false)
          → (loadVS env v).1 = false)
      ∧ ((loadVS env v).1 = false
          → ((loadVS env v).2.1).recLoaded = v.recLoaded) := by
  refine ⟨fun h => by simp [startVS, h], rfl, ?_, ?_⟩
  · intro h
    unfold loadVS
    by_cases hi : env.importOk
    · rcases h with h | h
      · simp [hi, h]
      · by_cases hd : env.isDir v.modelPath
        · simp [hi, hd, h]
        · simp [hi, hd]
    · simp [hi]
  · intro h
    unfold loadVS at *
    by_cases hi : env.importOk
    · by_cases hd : env.isDir v.modelPath
      · by_cases hm : env.modelOk v.modelPath
        · simp [hi, hd, hm] at h
        · simp [hi, hd, hm]
      · simp [hi, hd]
    · simp [hi]

/-- Environment with no model directory on disk. -/
def noDirEnv : VoskEnv :=
  { importOk := true, isDir := fun _ => false, modelOk := fun _ => false }

/-- Witness for C7 at concrete inputs. -/
theorem vosk_no_start_before_load_witness :
    startVS (VStreamer.mkNew ("m")) = (false, VStreamer.mkNew ("m"))
      ∧ (loadVS noDirEnv (VStreamer.mkNew ("m"))).1 = false :=
  ⟨(vosk_no_start_before_load noDirEnv (VStreamer.mkNew ("m")) ("m")).2.1,
   (vosk_no_start_before_load noDirEnv (VStreamer.mkNew ("m")) ("m")).2.2.1
    (Or.inl rfl)⟩

/-! ## Google fallback worker (`GoogleSegmentWorker._loop`)

One iteration dequeues a raw chunk and calls the remote recognizer.  The
outer `try` covers building `sr.AudioData`; inside it, a status
"Recognizing..." is pushed, `recognize_google` either returns a text,
raises `UnknownValueError` (no speech) or `RequestError` (transport),
and the `finally` pushes "Listening...". -/

inductive RecOutcome
  | recognized (text : String)
  | unknownValue
  | requestError
  | workerError (msg : String)
deriving DecidableEq

/-- Messages pushed while handling one dequeued chunk.  A recognized
text is forwarded unstripped, but only when its stripped form is
non-empty (`if text.strip():`). -/
def googleStep : RecOutcome → List Ev
  | RecOutcome.workerError m =>
    [Ev.statusEv (("Google worker error: ") ++ m) Severity.error]
  | RecOutcome.recognized t =>
    Ev.statusEv ("Recognizing...") Severity.ready
      :: ((if pyStrip t = ("") then [] else [Ev.finalTx t])
          ++ [Ev.statusEv ("Listening...") Severity.listening])
  | RecOutcome.unknownValue =>
    [Ev.statusEv ("Recognizing...") Severity.ready,
     Ev.statusEv ("Listening...") Severity.listening]
  | RecOutcome.requestError =>
    [Ev.statusEv ("Recognizing...") Severity.ready,
     Ev.statusEv ("Network/ASR Error") Severity.error,
     Ev.statusEv ("Listening...") Severity.listening]

/-- The fallback loop over the dequeued chunks; the worker keeps no state
between iterations. -/
def googleRun : List RecOutcome → List Ev
  | [] => []
  | o :: os => googleStep o ++ googleRun os

/-- `true` exactly for final transcription messages. -/
def isFinalTx : Ev → Bool
  | Ev.finalTx _ => true
  | _ => false

/-- `true` exactly for error-severity status messages. -/
def isErrStatus : Ev → Bool
  | Ev.statusEv _ Severity.error => true
  | _ => false

lemma googleRun_append :
    ∀ (l₁ l₂ : List RecOutcome), googleRun (l₁ ++ l₂) = googleRun l₁ ++ googleRun l₂
  | [], l₂ => rfl
  | o :: os, l₂ => by
    simp [googleRun, googleRun_append os l₂]

/-! ## Byte-level download (`_download_with_progress`)

Filesystem view of the two paths the download touches:
`dest_path + ".part"` and `dest_path` (contents as byte lists, `none`
when absent). -/

structure DlFS where
  part : Option (List ℕ)
  dest : Option (List ℕ)
deriving DecidableEq

/-- The successive contents of the `.part` file: `open(tmp_path, "wb")`
truncates it to empty, then each `resp.read` chunk is appended. -/
def partWrites : List ℕ → List (List ℕ) → List (List ℕ)
  | acc, [] => [acc]
  | acc, c :: cs => acc :: partWrites (acc ++ c) cs

/-- The state trace of one successful download: the initial state, the
state after opening the temp file and after every chunk write, and the
state after `os.replace(tmp_path, dest_path)`. -/
def dlTrace (fs : DlFS) (chunks : List (List ℕ)) : List DlFS :=
  fs :: ((partWrites [] chunks).map
          (fun c => { part := some c, dest := fs.dest }))
    ++ [{ part := none, dest := some chunks.flatten }]

/-- Outcome of one `_download_with_progress` call against one mirror. -/
inductive AttemptResult
  | failEarly
  | failAfter (k : ℕ)
  | success
deriving DecidableEq

/-- The filesystem after one download attempt whose stream consists of
`chunks`.  `failEarly`: `urlopen` raised before the temp file was
opened.  `failAfter k`: an I/O error after `k` chunk writes — the
`except` branch returns `False` without removing the temp file, so the
partial bytes stay at the `.part` path.  `success`: the full stream was
written and `os.replace` moved it to the destination. -/
def runAttempt (fs : DlFS) (chunks : List (List ℕ)) :
    AttemptResult → DlFS
  | AttemptResult.failEarly => fs
  | AttemptResult.failAfter k =>
    { part := some ((chunks.take k).flatten), dest := fs.dest }
  | AttemptResult.success => { part := none, dest := some chunks.flatten }

/-- The mirror loop of `auto_download_model` at the filesystem level:
try each mirror in order, stop at the first successful download. -/
def runMirrors : DlFS → List (List (List ℕ) × AttemptResult) → Bool × DlFS
  | fs, [] => (false, fs)
  | fs, (cs, r) :: rest =>
    if r = AttemptResult.success then (true, runAttempt fs cs r)
    else runMirrors (runAttempt fs cs r) rest

/-! ## Claim theorems (fallback recognizer, download) -/

/-- Claim C8: per dequeued chunk, a recognized result whose stripped
text is non-empty yields exactly one final transcription message and no
error status; a no-speech outcome yields neither a final message nor an
error status; a transport failure yields exactly one error status and
no final message; and the loop processes every chunk — the messages of
a run decompose chunk by chunk around any middle chunk. -/
theorem fallback_chunk_outcomes (t : String) (ht : pyStrip t ≠ ("")) :
    ((googleStep (RecOutcome.recognized t)).countP isFinalTx = 1
      ∧ (googleStep (RecOutcome.recognized t)).countP isErrStatus = 0)
      ∧ ((googleStep RecOutcome.unknownValue).countP isFinalTx = 0
        ∧ (googleStep RecOutcome.unknownValue).countP isErrStatus = 0)
      ∧ ((googleStep RecOutcome.requestError).countP isFinalTx = 0
        ∧ (googleStep RecOutcome.requestError).countP isErrStatus = 1)
      ∧ (∀ (os₁ os₂ : List RecOutcome) (o : RecOutcome),
          googleRun (os₁ ++ o :: os₂)
            = googleRun os₁ ++ googleStep o ++ googleRun os₂) := by
  refine ⟨?_, by decide, by decide, ?_⟩
  · constructor <;>
      simp [googleStep, ht, List.countP_cons, List.countP_append,
        isFinalTx, isErrStatus]
  · intro os₁ os₂ o
    rw [googleRun_append]
    simp [googleRun, List.append_assoc]

/-- Witness for C8 at a concrete recognized text. -/
theorem fallback_chunk_outcomes_witness :
    (googleStep (RecOutcome.recognized ("hi"))).countP isFinalTx = 1
      ∧ (googleStep (RecOutcome.recognized ("hi"))).countP isErrStatus = 0 :=
  (fallback_chunk_outcomes ("hi") (by decide)).1

/-- Claim C5: during a download no bytes ever appear at the destination
path — every state of the trace except the last leaves the destination
exactly as it was — and the last state is produced by the single rename,
holding the full stream at the destination with the `.part` file gone. -/
theorem download_atomic_visibility (fs : DlFS) (chunks : List (List ℕ)) :
    (∀ st ∈ (dlTrace fs chunks).dropLast, st.dest = fs.dest)
      ∧ (dlTrace fs chunks).getLast?
          = some { part := none, dest := some chunks.flatten } := by
  constructor
  · intro st hst
    rw [dlTrace] at hst
    rw [show fs :: (partWrites [] chunks).map
          (fun c => ({ part := some c, dest := fs.dest } : DlFS))
          ++ [{ part := none, dest := some chunks.flatten }]
        = (fs :: (partWrites [] chunks).map
            (fun c => ({ part := some c, dest := fs.dest } : DlFS)))
          ++ [{ part := none, dest := some chunks.flatten }] from rfl] at hst
    rw [List.dropLast_concat] at hst
    rcases List.mem_cons.mp hst with rfl | hmap
    · rfl
    · rcases List.mem_map.mp hmap with ⟨c, _, rfl⟩
      rfl
  · rw [dlTrace]
    rw [show fs :: (partWrites [] chunks).map
          (fun c => ({ part := some c, dest := fs.dest } : DlFS))
          ++ [{ part := none, dest := some chunks.flatten }]
        = (fs :: (partWrites [] chunks).map
            (fun c => ({ part := some c, dest := fs.dest } : DlFS)))
          ++ [{ part := none, dest := some chunks.flatten }] from rfl]
    rw [List.getLast?_concat]

/-- Witness for C5 at a concrete trace state. -/
theorem download_atomic_visibility_witness :
    ({ part := some [], dest := none } : DlFS).dest
        = ({ part := none, dest := none } : DlFS).dest
      ∧ (dlTrace { part := none, dest := none } [[5]]).getLast?
          = some { part := none, dest := some [5] } :=
  ⟨(download_atomic_visibility { part := none, dest := none } [[5]]).1
      { part := some [], dest := none } (by decide),
   by
    have h := (download_atomic_visibility
      { part := none, dest := none } [[5]]).2
    simpa using h⟩

/-- Claim C4, counterexample: an I/O failure does not discard the
`.part` file — after a failed attempt that wrote one chunk, the partial
bytes are still present at the `.part` path. -/
theorem download_part_not_discarded_cex :
    ¬ (∀ (fs : DlFS) (cs : List (List ℕ)) (k : ℕ),
        (runAttempt fs cs (AttemptResult.failAfter k)).part = none) := by
  intro h
  have hx := h { part := none, dest := none } [[7]] 1
  simp [runAttempt] at hx

/-- Claim C4 as amended: a failed mirror leaves its partial `.part`
bytes in place and the loop advances to the next source; since each new
attempt truncates the temp file and a successful attempt renames it
away, a run in which mirrors 1..N−1 fail and mirror N succeeds ends
with exactly mirror N's bytes at the destination and no `.part` file. -/
theorem download_failover_amended (fs : DlFS)
    (pre : List (List (List ℕ) × AttemptResult)) (csN : List (List ℕ))
    (hfail : ∀ a ∈ pre, a.2 ≠ AttemptResult.success) :
    runMirrors fs (pre ++ [(csN, AttemptResult.success)])
      = (true, { part := none, dest := some csN.flatten }) := by
  induction pre generalizing fs with
  | nil => simp [runMirrors, runAttempt]
  | cons a rest ih =>
    obtain ⟨cs, r⟩ := a
    have ha : r ≠ AttemptResult.success := hfail (cs, r) (by simp)
    rw [List.cons_append, runMirrors, if_neg ha]
    exact ih _ (fun b hb => hfail b (List.mem_cons_of_mem _ hb))

/-- Witness for C4 at a concrete mirror run. -/
theorem download_failover_amended_witness :
    runMirrors { part := none, dest := none }
      [([[1]], AttemptResult.failAfter 1), ([[2], [3]], AttemptResult.success)]
      = (true, { part := none, dest := some [2, 3] }) :=
  download_failover_amended { part := none, dest := none }
    [([[1]], AttemptResult.failAfter 1)] [[2], [3]] (by decide)

/-! ## Claim theorems (capture and provisioning entry check) -/

/-- Claim C9: the capture frame size is
`max 1 (sampleRate * frameDurationMs / 1000)` samples (division
truncating), and with `sampleRate=16000, frameDurationMs=20` a frame is
320 samples, i.e. 640 bytes of 16-bit mono audio. -/
theorem capture_frame_size (rate ms : ℕ) :
    chunkSamples rate ms = max 1 (rate * ms / 1000)
      ∧ chunkSamples 16000 20 = 320
      ∧ frameBytes 16000 20 = 640 :=
  ⟨rfl, by norm_num [chunkSamples], by norm_num [frameBytes, chunkSamples]⟩

/-- Claim C1 (code evaluated at the failing configuration): in the program
as shipped the capture sink is never installed (`appSinkInstalled`), so
every successfully read frame is routed to the fallback spillover queue
even while the streaming recognizer is running — the per-read amplitude
sample is still pushed.  The second conjunct shows the dead sink
`_capture_sink` would have routed a frame to the running recognizer. -/
theorem capture_frames_bypass_recognizer :
    (∀ (running : Bool) (samples : List Int),
        readIter appSinkInstalled running samples
          = (meanSq samples, FrameDest.spillover))
      ∧ captureSinkDest true = FrameDest.recognizer :=
  ⟨fun _ _ => rfl, rfl⟩

/-- Claim C2, counterexample: it is not the case that success with zero
network activity implies the target directory is non-empty — an
existing-but-empty target directory already yields `(true, 0)`. -/
theorem ensure_asset_emptydir_cex :
    ¬ (∀ (env : DlEnv) (urls : List String),
        autoDownloadModel env urls = (true, 0) → env.targetNonempty = true) := by
  intro h
  have hx := h emptyDirEnv [("u")] rfl
  simp [emptyDirEnv] at hx

/-- Claim C2 as amended: `auto_download_model` returns success with zero
network activity exactly when the target directory exists (as a
directory) at call time; emptiness of the directory is never checked. -/
theorem ensure_asset_zero_network_iff (env : DlEnv) (urls : List String) :
    autoDownloadModel env urls = (true, 0) ↔ env.targetIsDir = true := by
  constructor
  · intro h
    by_cases hd : env.targetIsDir
    · exact hd
    · exfalso
      rw [autoDownloadModel, if_neg hd] at h
      have h1 : (admGo env urls 0).1 = true := by rw [h]
      have h2 := admGo_true_lt env urls 0 h1
      rw [h] at h2
      simp at h2
  · intro h
    simp [autoDownloadModel, h]

end PolyLingua
